import Mathlib

/-!
Verification development for the odooctl repository (Go).

Shallow embedding of the environment identity & state subsystem:
  - internal/config/config.go   (State, Ports, Save/Load/LoadFromDir,
    EnvironmentExists, CalculatePorts, FindAvailablePorts)
  - internal/config utilities   (SanitizeName, MaskToken)
  - internal/project            (Detect, name derivation)
  - cmd/docker/create.go        (runCreate identity merge and conflict guard)
  - cmd/docker/reset.go         (runReset config-file removal)

Modelling conventions:
  - Machine integers are `Int`/`Nat` (no overflow is reachable at the
    magnitudes the code manipulates: ports below 10000, string lengths).
  - Go byte strings are Lean `String` (all inputs of interest are ASCII,
    where Go's byte indexing and Lean's char indexing coincide).
  - JSON serialization (encoding/json) is modelled by an explicit
    `Json` value type with an encoder/decoder that mirrors the struct
    tags of `config.State` (field names, `omitempty`, zero-value
    defaulting for absent keys, `null` handling).
  - `time.Time` values are represented by their serialized RFC3339
    rendering (a `String`): that is exactly the information a state
    record durably carries through the JSON file.
-/

/-- JSON documents, as produced and consumed by encoding/json.
Numbers are restricted to integers: every number the program writes
(the four ports) is an integer. -/
inductive Json where
  | null : Json
  | bool : Bool → Json
  | num : Int → Json
  | str : String → Json
  | arr : List Json → Json
  | obj : List (String × Json) → Json

/-- Ports, from internal/config/config.go: the four related ports of one
environment (json tags odoo, mailhog, smtp, debug). -/
structure Ports where
  odoo : Int
  mailhog : Int
  smtp : Int
  debug : Int
deriving DecidableEq

/-- State, from internal/config/config.go. Go nil slices are `none`,
non-nil slices `some` (encoding/json distinguishes them: `null` vs `[]`).
`time.Time` and `*time.Time` fields carry their RFC3339 serialization;
a nil `*time.Time` is `none`. -/
structure State where
  projectName : String
  odooVersion : String
  branch : String
  isGitRepo : Bool
  projectRoot : String
  modules : Option (List String)
  enterprise : Bool
  enterpriseGitHubToken : String
  enterpriseSSHKeyPath : String
  withoutDemo : Bool
  pipPackages : Option (List String)
  addonsPaths : Option (List String)
  ports : Ports
  createdAt : String
  initializedAt : Option String
  builtAt : Option String
deriving DecidableEq

/-- Key lookup in a JSON object. encoding/json decodes object members
sequentially, so on duplicate keys the last occurrence wins; every
object this development builds has distinct keys, where first- and
last-match agree, and we use first-match. -/
def jlookup : List (String × Json) → String → Option Json
  | [], _ => none
  | (k, v) :: rest, key => if k = key then some v else jlookup rest key

/-- Serialization of an optional (possibly nil) string slice. -/
def encodeStrList : Option (List String) → Json
  | none => Json.null
  | some l => Json.arr (l.map Json.str)

/-- Serialization of a Ports value (json tags odoo, mailhog, smtp, debug). -/
def encodePorts (p : Ports) : Json :=
  Json.obj [("odoo", Json.num p.odoo), ("mailhog", Json.num p.mailhog),
            ("smtp", Json.num p.smtp), ("debug", Json.num p.debug)]

/-- Members of the JSON object json.Marshal produces for a
`config.State`, following the struct tags: fields in declaration order;
`enterprise_github_token`, `enterprise_ssh_key_path` carry omitempty
(dropped when empty); `initialized_at`, `built_at` carry omitempty
(dropped when nil). -/
def stateFields (s : State) : List (String × Json) :=
    ([("project_name", Json.str s.projectName),
      ("odoo_version", Json.str s.odooVersion),
      ("branch", Json.str s.branch),
      ("is_git_repo", Json.bool s.isGitRepo),
      ("project_root", Json.str s.projectRoot),
      ("modules", encodeStrList s.modules),
      ("enterprise", Json.bool s.enterprise)]
     ++ (if s.enterpriseGitHubToken = "" then []
         else [("enterprise_github_token", Json.str s.enterpriseGitHubToken)])
     ++ (if s.enterpriseSSHKeyPath = "" then []
         else [("enterprise_ssh_key_path", Json.str s.enterpriseSSHKeyPath)])
     ++ [("without_demo", Json.bool s.withoutDemo),
         ("pip_packages", encodeStrList s.pipPackages),
         ("addons_paths", encodeStrList s.addonsPaths),
         ("ports", encodePorts s.ports),
         ("created_at", Json.str s.createdAt)]
     ++ (match s.initializedAt with
         | none => []
         | some t => [("initialized_at", Json.str t)])
     ++ (match s.builtAt with
         | none => []
         | some t => [("built_at", Json.str t)]))

/-- json.Marshal of a `config.State`. -/
def encodeState (s : State) : Json := Json.obj (stateFields s)

/-- Decoding a string field: an absent key or `null` leaves the zero
value `""`; a non-string value is a type error. -/
def decodeStrField (kvs : List (String × Json)) (k : String) : Option String :=
  match jlookup kvs k with
  | none => some ""
  | some Json.null => some ""
  | some (Json.str s) => some s
  | some _ => none

/-- Decoding a bool field: absent or `null` leaves `false`. -/
def decodeBoolField (kvs : List (String × Json)) (k : String) : Option Bool :=
  match jlookup kvs k with
  | none => some false
  | some Json.null => some false
  | some (Json.bool b) => some b
  | some _ => none

/-- Decoding an int field: absent or `null` leaves `0`. -/
def decodeIntField (kvs : List (String × Json)) (k : String) : Option Int :=
  match jlookup kvs k with
  | none => some 0
  | some Json.null => some 0
  | some (Json.num n) => some n
  | some _ => none

/-- Decoding one element of a `[]string`: `null` leaves the element's
zero value `""`. -/
def decodeStrElem : Json → Option String
  | Json.str s => some s
  | Json.null => some ""
  | _ => none

/-- Decoding the elements of a JSON array into a string slice. -/
def decodeStrArr : List Json → Option (List String)
  | [] => some []
  | j :: rest => do
      let s ← decodeStrElem j
      let t ← decodeStrArr rest
      some (s :: t)

/-- Decoding a `[]string` field: absent or `null` gives the nil slice. -/
def decodeStrListField (kvs : List (String × Json)) (k : String) :
    Option (Option (List String)) :=
  match jlookup kvs k with
  | none => some none
  | some Json.null => some none
  | some (Json.arr l) => (decodeStrArr l).map some
  | some _ => none

/-- Decoding a Ports value. -/
def decodePorts : Json → Option Ports
  | Json.null => some ⟨0, 0, 0, 0⟩
  | Json.obj kvs => do
      let o ← decodeIntField kvs "odoo"
      let m ← decodeIntField kvs "mailhog"
      let sm ← decodeIntField kvs "smtp"
      let d ← decodeIntField kvs "debug"
      some ⟨o, m, sm, d⟩
  | _ => none

/-- Decoding the `ports` field: an absent key leaves the zero struct. -/
def decodePortsField (kvs : List (String × Json)) (k : String) : Option Ports :=
  match jlookup kvs k with
  | none => some ⟨0, 0, 0, 0⟩
  | some j => decodePorts j

/-- RFC3339 rendering of the zero `time.Time`. -/
def zeroTimeRFC : String := "0001-01-01T00:00:00Z"

/-- Decoding a `time.Time` field: absent or `null` leaves the zero time.
The real decoder parses the string as RFC3339 and can reject malformed
text; every string this development stores at a time field is a
rendering of a time value, so acceptance of the string is exact here. -/
def decodeTimeField (kvs : List (String × Json)) (k : String) : Option String :=
  match jlookup kvs k with
  | none => some zeroTimeRFC
  | some Json.null => some zeroTimeRFC
  | some (Json.str s) => some s
  | some _ => none

/-- Decoding a `*time.Time` field: absent or `null` leaves a nil pointer. -/
def decodeOptTimeField (kvs : List (String × Json)) (k : String) :
    Option (Option String) :=
  match jlookup kvs k with
  | none => some none
  | some Json.null => some none
  | some (Json.str s) => some (some s)
  | some _ => none

/-- json.Unmarshal of a `config.State`: any JSON object is accepted,
absent keys leave zero values, mistyped values fail. -/
def decodeState : Json → Option State
  | Json.obj kvs => do
      let pn ← decodeStrField kvs "project_name"
      let ov ← decodeStrField kvs "odoo_version"
      let br ← decodeStrField kvs "branch"
      let gr ← decodeBoolField kvs "is_git_repo"
      let pr ← decodeStrField kvs "project_root"
      let mo ← decodeStrListField kvs "modules"
      let en ← decodeBoolField kvs "enterprise"
      let tok ← decodeStrField kvs "enterprise_github_token"
      let ssh ← decodeStrField kvs "enterprise_ssh_key_path"
      let wd ← decodeBoolField kvs "without_demo"
      let pip ← decodeStrListField kvs "pip_packages"
      let ap ← decodeStrListField kvs "addons_paths"
      let po ← decodePortsField kvs "ports"
      let ca ← decodeTimeField kvs "created_at"
      let ia ← decodeOptTimeField kvs "initialized_at"
      let ba ← decodeOptTimeField kvs "built_at"
      some { projectName := pn, odooVersion := ov, branch := br,
             isGitRepo := gr, projectRoot := pr, modules := mo,
             enterprise := en, enterpriseGitHubToken := tok,
             enterpriseSSHKeyPath := ssh, withoutDemo := wd,
             pipPackages := pip, addonsPaths := ap, ports := po,
             createdAt := ca, initializedAt := ia, builtAt := ba }
  | _ => none

lemma decodeStrArr_map_str (l : List String) :
    decodeStrArr (l.map Json.str) = some l := by
  induction l with
  | nil => rfl
  | cons a t ih => simp [decodeStrArr, decodeStrElem, ih]

lemma fields_project_name (s : State) :
    decodeStrField (stateFields s) "project_name" = some s.projectName := by
  simp [stateFields, jlookup, decodeStrField]

lemma fields_odoo_version (s : State) :
    decodeStrField (stateFields s) "odoo_version" = some s.odooVersion := by
  simp [stateFields, jlookup, decodeStrField]

lemma fields_branch (s : State) :
    decodeStrField (stateFields s) "branch" = some s.branch := by
  simp [stateFields, jlookup, decodeStrField]

lemma fields_is_git_repo (s : State) :
    decodeBoolField (stateFields s) "is_git_repo" = some s.isGitRepo := by
  simp [stateFields, jlookup, decodeBoolField]

lemma fields_project_root (s : State) :
    decodeStrField (stateFields s) "project_root" = some s.projectRoot := by
  simp [stateFields, jlookup, decodeStrField]

lemma fields_modules (s : State) :
    decodeStrListField (stateFields s) "modules" = some s.modules := by
  cases h : s.modules <;>
    simp [stateFields, jlookup, decodeStrListField, h, encodeStrList,
          decodeStrArr_map_str]

lemma fields_enterprise (s : State) :
    decodeBoolField (stateFields s) "enterprise" = some s.enterprise := by
  simp [stateFields, jlookup, decodeBoolField]

lemma fields_token (s : State) :
    decodeStrField (stateFields s) "enterprise_github_token"
      = some s.enterpriseGitHubToken := by
  by_cases h1 : s.enterpriseGitHubToken = "" <;>
    by_cases h2 : s.enterpriseSSHKeyPath = "" <;>
      cases h3 : s.initializedAt <;> cases h4 : s.builtAt <;>
        simp [stateFields, jlookup, decodeStrField, h1, h2, h3, h4]

lemma fields_ssh (s : State) :
    decodeStrField (stateFields s) "enterprise_ssh_key_path"
      = some s.enterpriseSSHKeyPath := by
  by_cases h1 : s.enterpriseGitHubToken = "" <;>
    by_cases h2 : s.enterpriseSSHKeyPath = "" <;>
      cases h3 : s.initializedAt <;> cases h4 : s.builtAt <;>
        simp [stateFields, jlookup, decodeStrField, h1, h2, h3, h4]

lemma fields_without_demo (s : State) :
    decodeBoolField (stateFields s) "without_demo" = some s.withoutDemo := by
  by_cases h1 : s.enterpriseGitHubToken = "" <;>
    by_cases h2 : s.enterpriseSSHKeyPath = "" <;>
      simp [stateFields, jlookup, decodeBoolField, h1, h2]

lemma fields_pip_packages (s : State) :
    decodeStrListField (stateFields s) "pip_packages" = some s.pipPackages := by
  by_cases h1 : s.enterpriseGitHubToken = "" <;>
    by_cases h2 : s.enterpriseSSHKeyPath = "" <;>
      cases h : s.pipPackages <;>
        simp [stateFields, jlookup, decodeStrListField, h1, h2, h,
              encodeStrList, decodeStrArr_map_str]

lemma fields_addons_paths (s : State) :
    decodeStrListField (stateFields s) "addons_paths" = some s.addonsPaths := by
  by_cases h1 : s.enterpriseGitHubToken = "" <;>
    by_cases h2 : s.enterpriseSSHKeyPath = "" <;>
      cases h : s.addonsPaths <;>
        simp [stateFields, jlookup, decodeStrListField, h1, h2, h,
              encodeStrList, decodeStrArr_map_str]

lemma fields_ports (s : State) :
    decodePortsField (stateFields s) "ports" = some s.ports := by
  by_cases h1 : s.enterpriseGitHubToken = "" <;>
    by_cases h2 : s.enterpriseSSHKeyPath = "" <;>
      simp [stateFields, jlookup, decodePortsField, decodePorts,
            decodeIntField, encodePorts, h1, h2]

lemma fields_created_at (s : State) :
    decodeTimeField (stateFields s) "created_at" = some s.createdAt := by
  by_cases h1 : s.enterpriseGitHubToken = "" <;>
    by_cases h2 : s.enterpriseSSHKeyPath = "" <;>
      simp [stateFields, jlookup, decodeTimeField, h1, h2]

lemma fields_initialized_at (s : State) :
    decodeOptTimeField (stateFields s) "initialized_at" = some s.initializedAt := by
  by_cases h1 : s.enterpriseGitHubToken = "" <;>
    by_cases h2 : s.enterpriseSSHKeyPath = "" <;>
      cases h : s.initializedAt <;> cases h4 : s.builtAt <;>
        simp [stateFields, jlookup, decodeOptTimeField, h1, h2, h, h4]

lemma fields_built_at (s : State) :
    decodeOptTimeField (stateFields s) "built_at" = some s.builtAt := by
  by_cases h1 : s.enterpriseGitHubToken = "" <;>
    by_cases h2 : s.enterpriseSSHKeyPath = "" <;>
      cases h3 : s.initializedAt <;> cases h : s.builtAt <;>
        simp [stateFields, jlookup, decodeOptTimeField, h1, h2, h3, h]

/-- Serialization followed by deserialization restores every field of a
state record exactly, including empty and nil optional fields. -/
lemma decode_encode_state (s : State) : decodeState (encodeState s) = some s := by
  simp [encodeState, decodeState, fields_project_name, fields_odoo_version,
        fields_branch, fields_is_git_repo, fields_project_root,
        fields_modules, fields_enterprise, fields_token, fields_ssh,
        fields_without_demo, fields_pip_packages, fields_addons_paths,
        fields_ports, fields_created_at, fields_initialized_at,
        fields_built_at]

/-!
Name Sanitizer, from `config.SanitizeName`: replace every `/` with `-`,
then delete every character outside `[a-zA-Z0-9\-_.]` (the regexp's
classes are ASCII, as are Lean's `Char.isAlpha`/`Char.isDigit`).
-/

/-- Characters the regexp `[^a-zA-Z0-9\-_.]` keeps. -/
def isAllowedChar (c : Char) : Bool :=
  c.isAlpha || c.isDigit || c == '-' || c == '_' || c == '.'

/-- SanitizeName from the config package. -/
def sanitizeName (s : String) : String :=
  String.mk ((s.data.map (fun c => if c = '/' then '-' else c)).filter isAllowedChar)

lemma mem_sanitizeName_allowed (s : String) :
    ∀ c ∈ (sanitizeName s).data, isAllowedChar c = true := by
  intro c hc
  simp only [sanitizeName] at hc
  exact List.of_mem_filter hc

lemma allowedChar_ne_slash {c : Char} (h : isAllowedChar c = true) : c ≠ '/' := by
  intro hEq
  subst hEq
  simp [isAllowedChar, Char.isAlpha, Char.isDigit, Char.isUpper, Char.isLower] at h

lemma map_slash_id (l : List Char) (h : ∀ c ∈ l, isAllowedChar c = true) :
    l.map (fun c => if c = '/' then '-' else c) = l := by
  induction l with
  | nil => rfl
  | cons a t ih =>
    have ha := allowedChar_ne_slash (h a (by simp))
    simp only [List.map_cons, if_neg ha, ih (fun c hc => h c (by simp [hc]))]

lemma sanitizeName_fixed (s : String)
    (h : ∀ c ∈ s.data, isAllowedChar c = true) : sanitizeName s = s := by
  cases s with
  | mk data =>
    simp only [sanitizeName]
    congr 1
    rw [map_slash_id data h]
    exact List.filter_eq_self.mpr h

/-!
Identity Resolver, from `project.Detect` and the identity merge at the
top of `runCreate` (cmd/docker/create.go). `git.Detect` performs I/O;
its result is the `GitInfo` input here. `Detect` seeds the name from
the directory's base name and the environment name from "main", then,
inside a git repository, replaces both from the repository name and
branch; each of those four strings passes through SanitizeName.
-/

/-- Result of git detection consumed by project.Detect. -/
structure GitInfo where
  isRepo : Bool
  repoName : String
  branch : String

/-- The (project name, environment name) pair produced by
`project.Detect`: `baseName` is the base name of the absolute
directory. -/
def detectNames (baseName : String) (g : GitInfo) : String × String :=
  if g.isRepo then (sanitizeName g.repoName, sanitizeName g.branch)
  else (sanitizeName baseName, sanitizeName "main")

/-- The (project name, environment name) pair `runCreate` persists,
after applying the `--name` flag (`flagName`; empty means the flag was
not given): inside a git repository the flag overrides the project
name, outside it the flag sets the environment name, which otherwise
defaults to the project name. The flag value is used verbatim. -/
def createNames (baseName : String) (g : GitInfo) (flagName : String) :
    String × String :=
  let dn := detectNames baseName g
  if g.isRepo then
    (if flagName ≠ "" then flagName else dn.1, dn.2)
  else
    (dn.1, if flagName ≠ "" then flagName else dn.1)

/-!
MaskToken, from the config package. Go's `strings.Repeat` is modelled
with an explicit count that may be negative, in which case Go panics
("strings: negative Repeat count"); a panic is `none`. Go indexes the
token by bytes; tokens are ASCII, where bytes and chars coincide.
-/

/-- strings.Repeat of `"*"`, with Go's panic on a negative count. -/
def goRepeatStar (n : Int) : Option String :=
  if n < 0 then none else some (String.mk (List.replicate n.toNat '*'))

/-- MaskToken from the config package; `none` is a panic. Slicing is
done on the character list (Go slices bytes; tokens are ASCII). -/
def maskToken (token : String) : Option String :=
  if token.length ≤ 8 then some "****"
  else
    let pEnd : Nat := if "github_pat_".data.isPrefixOf token.data then 11 else 4
    let visible := String.mk (token.data.take pEnd)
    let last4 := String.mk (token.data.drop (token.length - 4))
    (goRepeatStar ((token.length : Int) - pEnd - 4)).map
      (fun stars => visible ++ stars ++ last4)

/-!
Port Allocator, from `config.CalculatePorts`, `Ports.CheckPortsAvailable`
and `config.FindAvailablePorts`. `fmt.Sscanf(version, "%d", &major)`
reads an optional sign and a run of decimal digits after optional
white space; on failure the code falls back to major 17.
`IsPortAvailable` binds a TCP listener, which is I/O: it is the oracle
`avail` here, one fixed answer per port for the duration of one call.
-/

/-- Decimal digit run to a number; fails on an empty run. -/
def digitsVal (cs : List Char) : Option Nat :=
  let ds := cs.takeWhile Char.isDigit
  if ds.isEmpty then none
  else some (ds.foldl (fun a c => 10 * a + (c.toNat - 48)) 0)

/-- fmt.Sscanf with format `%d`: leading white space, optional sign,
digits. -/
def sscanfInt (s : String) : Option Int :=
  match s.data.dropWhile (fun c => c == ' ' || c == '\t' || c == '\n' || c == '\r') with
  | '-' :: rest => (digitsVal rest).map (fun n => -(n : Int))
  | '+' :: rest => (digitsVal rest).map (fun n => (n : Int))
  | rest => (digitsVal rest).map (fun n => (n : Int))

/-- The major component CalculatePorts works from ("17.0" gives 17,
unparseable input gives the default 17). -/
def majorOfVersion (s : String) : Int := (sscanfInt s).getD 17

/-- The fixed linear port formulas applied to a major version. -/
def portsOfMajor (major : Int) : Ports :=
  { odoo := 8000 + major * 100
    mailhog := 8000 + major * 100 + 25
    smtp := 1000 + major * 100 + 25
    debug := 5000 + major * 100 + 78 }

/-- CalculatePorts from internal/config/config.go. -/
def calculatePorts (version : String) : Ports :=
  portsOfMajor (majorOfVersion version)

/-- Ports.CheckPortsAvailable: probes the four ports in the fixed order
odoo, mailhog, smtp, debug and returns (all available, conflicting). -/
def checkPortsAvailable (avail : Int → Bool) (p : Ports) : Bool × List Int :=
  let conflicting := [p.odoo, p.mailhog, p.smtp, p.debug].filter (fun q => !(avail q))
  (conflicting.isEmpty, conflicting)

/-- Shifting all four ports of an allocation by one common offset. -/
def shiftPorts (p : Ports) (off : Int) : Ports :=
  { odoo := p.odoo + off, mailhog := p.mailhog + off,
    smtp := p.smtp + off, debug := p.debug + off }

/-- The attempt loop of FindAvailablePorts over the remaining attempt
indices: candidate i is the base shifted by 10*i; the first fully
available candidate wins. -/
def tryOffsets (avail : Int → Bool) (base : Ports) : List Nat → Ports
  | [] => base
  | i :: rest =>
      let candidate := shiftPorts base ((10 : Int) * i)
      if (checkPortsAvailable avail candidate).1 then candidate
      else tryOffsets avail base rest

/-- FindAvailablePorts from internal/config/config.go: ten attempts at
offsets 0, 10, ..., 90, falling back to the base allocation. -/
def findAvailablePorts (avail : Int → Bool) (version : String) : Ports :=
  tryOffsets avail (calculatePorts version) (List.range 10)

/-!
Environment Store, from internal/config/config.go.

The filesystem is a finite map from paths to file contents plus a set
of directories. Paths are segment lists; `filepath.Join` over the
sanitized, non-empty path segments the store composes is plain segment
concatenation, which is what `envDir` does. The project root directory
named inside a state record only ever reaches the store as an opaque
string (it is compared with `==` and joined with the marker file name),
so it is kept atomic: the marker of project root `r` lives at path
`[r, ".odooctl"]`.

File contents are serialized values: `Blob.json j` stands for the bytes
json.Marshal produced for `j`; `Blob.path p` stands for the rendering
of the environment directory path `p` (the only thing Save ever writes
into a marker, already free of surrounding white space, so the
strings.TrimSpace in LoadFromDir is the identity on it); `Blob.raw`
stands for opaque bytes that are neither (reading them as a state file
fails to unmarshal, reading them as a marker designates a directory
that stores no state file).

Write failures (read-only filesystem, permissions, missing parent) are
an oracle `failWrite` carried by the filesystem: `writeFile` fails
exactly on those paths.
-/

/-- Filesystem paths as segment lists. -/
abbrev FsPath := List String

/-- Serialized file contents. -/
inductive Blob where
  | json (j : Json)
  | path (p : FsPath)
  | raw (s : String)

/-- A filesystem: files, directories and the write-failure oracle. -/
structure FS where
  files : List (FsPath × Blob)
  dirs : List FsPath
  failWrite : FsPath → Bool

/-- Association-list lookup by path. -/
def lookupFile : List (FsPath × Blob) → FsPath → Option Blob
  | [], _ => none
  | (q, b) :: rest, p => if q = p then some b else lookupFile rest p

/-- Association-list update by path (overwrite or append). -/
def setFile : List (FsPath × Blob) → FsPath → Blob → List (FsPath × Blob)
  | [], p, b => [(p, b)]
  | (q, c) :: rest, p, b =>
      if q = p then (p, b) :: rest else (q, c) :: setFile rest p b

/-- os.ReadFile. -/
def FS.readFile (fs : FS) (p : FsPath) : Option Blob := lookupFile fs.files p

/-- os.WriteFile: fails exactly on the oracle's paths. -/
def FS.writeFile (fs : FS) (p : FsPath) (b : Blob) : Option FS :=
  if fs.failWrite p then none
  else some { fs with files := setFile fs.files p b }

/-- Every ancestor of a path, the path itself included. -/
def pathAncestors (p : FsPath) : List FsPath :=
  (List.range (p.length + 1)).map (fun i => p.take i)

/-- os.MkdirAll: creates the directory and all its ancestors. -/
def FS.mkdirAll (fs : FS) (p : FsPath) : FS :=
  { fs with dirs := pathAncestors p ++ fs.dirs }

/-- The name under which `q` is a direct child of directory `d`,
if it is one. -/
def childOf (d q : FsPath) : Option String :=
  if q.dropLast = d then q.getLast? else none

/-- os.ReadDir: the entries (name, is-directory) of a directory, sorted
by name as os.ReadDir guarantees; fails if the directory is absent. -/
def FS.readDir (fs : FS) (d : FsPath) : Option (List (String × Bool)) :=
  if d ∈ fs.dirs then
    some (List.insertionSort (fun a b => a.1 ≤ b.1)
      (((fs.dirs.filterMap (childOf d)).dedup.map (fun n => (n, true)))
       ++ ((fs.files.map Prod.fst).filterMap (childOf d)).dedup.map
            (fun n => (n, false))))
  else none

/-- config.StateFileName. -/
def stateFileName : String := ".odooctl-state.json"

/-- config.MarkerFileName. -/
def markerFileName : String := ".odooctl"

/-- config.EnvironmentDir: ROOT/{project}/{branch}; `root` is the
configuration root ~/.odooctl. -/
def envDir (root : FsPath) (projectName branch : String) : FsPath :=
  root ++ [projectName, branch]

/-- The path of the state file of one environment. -/
def stateFilePath (root : FsPath) (projectName branch : String) : FsPath :=
  envDir root projectName branch ++ [stateFileName]

/-- The path of the marker file under a project root. -/
def markerPathOf (projectRoot : String) : FsPath :=
  [projectRoot, markerFileName]

/-- config.EnvironmentExists: stats the state file. -/
def envExists (fs : FS) (root : FsPath) (projectName branch : String) : Bool :=
  (fs.readFile (stateFilePath root projectName branch)).isSome

/-- Load failures: absent state file vs. present but unparseable. -/
inductive LoadErr where
  | notFound
  | corrupt
deriving DecidableEq

/-- config.Load: read the state file and unmarshal it. -/
def loadState (fs : FS) (root : FsPath) (projectName branch : String) :
    Except LoadErr State :=
  match fs.readFile (stateFilePath root projectName branch) with
  | none => Except.error LoadErr.notFound
  | some (Blob.json j) =>
      match decodeState j with
      | some st => Except.ok st
      | none => Except.error LoadErr.corrupt
  | some _ => Except.error LoadErr.corrupt

/-- State.Save: create the environment directory, write the marshalled
state there, then write the marker file under the project root with the
environment directory as content. Any write failure aborts. -/
def saveState (fs : FS) (root : FsPath) (s : State) : Option FS := do
  let dir := envDir root s.projectName s.branch
  let fs1 := FS.mkdirAll fs dir
  let fs2 ← fs1.writeFile (dir ++ [stateFileName]) (Blob.json (encodeState s))
  fs2.writeFile (markerPathOf s.projectRoot) (Blob.path dir)

/-- The marker fast path of LoadFromDir: read the marker under `dir`,
load the state file in the directory it names, and verify that the
loaded record still points back at `dir`. -/
def loadFromDirFast (fs : FS) (dir : String) : Option State :=
  match fs.readFile (markerPathOf dir) with
  | some (Blob.path envd) =>
      match fs.readFile (envd ++ [stateFileName]) with
      | some (Blob.json j) =>
          match decodeState j with
          | some st => if st.projectRoot = dir then some st else none
          | none => none
      | _ => none
  | _ => none

/-- The inner loop of LoadFromDir's scan: walk the entries of one
project directory, skip non-directories, skip unloadable state, return
the first record whose project root is `dir`. -/
def scanBranches (fs : FS) (root : FsPath) (dir : String) (p : String) :
    List (String × Bool) → Option State
  | [] => none
  | (b, isDir) :: rest =>
      if isDir then
        match loadState fs root p b with
        | Except.ok st =>
            if st.projectRoot = dir then some st
            else scanBranches fs root dir p rest
        | Except.error _ => scanBranches fs root dir p rest
      else scanBranches fs root dir p rest

/-- The outer loop of LoadFromDir's scan: walk the project directories,
skip non-directories and unreadable project directories. -/
def scanProjects (fs : FS) (root : FsPath) (dir : String) :
    List (String × Bool) → Option State
  | [] => none
  | (p, isDir) :: rest =>
      if isDir then
        match fs.readDir (root ++ [p]) with
        | some branchEntries =>
            match scanBranches fs root dir p branchEntries with
            | some st => some st
            | none => scanProjects fs root dir rest
        | none => scanProjects fs root dir rest
      else scanProjects fs root dir rest

/-- config.LoadFromDir: marker fast path first; on a miss, scan every
project/branch directory under the root for a record whose project
root equals `dir`, and on a match rewrite the marker (best effort: a
failed write is ignored). Returns the result together with the
filesystem, which the marker repair may have changed. -/
def loadFromDir (fs : FS) (root : FsPath) (dir : String) : Option State × FS :=
  match loadFromDirFast fs dir with
  | some st => (some st, fs)
  | none =>
      match fs.readDir root with
      | none => (none, fs)
      | some projectEntries =>
          match scanProjects fs root dir projectEntries with
          | none => (none, fs)
          | some st =>
              match fs.writeFile (markerPathOf dir)
                  (Blob.path (envDir root st.projectName st.branch)) with
              | some fs2 => (some st, fs2)
              | none => (some st, fs)

/-- The records the scan can see, in scan order: one triple
(project entry, branch entry, state) per loadable state file under a
readable project directory entry. -/
def recordsOfBranches (fs : FS) (root : FsPath) (p : String) :
    List (String × Bool) → List (String × String × State)
  | [] => []
  | (b, isDir) :: rest =>
      if isDir then
        match loadState fs root p b with
        | Except.ok st => (p, b, st) :: recordsOfBranches fs root p rest
        | Except.error _ => recordsOfBranches fs root p rest
      else recordsOfBranches fs root p rest

/-- The records the outer scan can see, in scan order. -/
def recordsOfProjects (fs : FS) (root : FsPath) :
    List (String × Bool) → List (String × String × State)
  | [] => []
  | (p, isDir) :: rest =>
      if isDir then
        match fs.readDir (root ++ [p]) with
        | some bs => recordsOfBranches fs root p bs ++ recordsOfProjects fs root rest
        | none => recordsOfProjects fs root rest
      else recordsOfProjects fs root rest

/-- All persisted state records the scan fallback enumerates. -/
def scanRecords (fs : FS) (root : FsPath) : List (String × String × State) :=
  match fs.readDir root with
  | none => []
  | some ps => recordsOfProjects fs root ps

/-- Whether a scanned record claims the queried directory. -/
def matchesDir (dir : String) (r : String × String × State) : Bool :=
  r.2.2.projectRoot == dir

/-- os.RemoveAll of one environment directory, as the reset flow runs
it: every file and directory under ROOT/{project}/{branch} disappears;
removing an absent environment is a no-op, not an error. -/
def removeEnv (fs : FS) (root : FsPath) (projectName branch : String) : FS :=
  let d := envDir root projectName branch
  { fs with
    files := fs.files.filter (fun qb => !(d.isPrefixOf qb.1)),
    dirs := fs.dirs.filter (fun q => !(d.isPrefixOf q)) }

/-- The conflict message of runCreate (cmd/docker/create.go), naming
the colliding identity (Go renders it inside single quotation marks). -/
def conflictMsg (projectName branch : String) : String :=
  "environment " ++ projectName ++ "/" ++ branch ++
    " already exists. Use a different --name or remove the existing environment with odooctl docker reset"

/-- The persistence backbone of runCreate: refuse when the identity is
already taken, otherwise save the freshly built record. Template
rendering, which happens between the guard and the save and does not
touch the store, is elided. -/
def runCreateFlow (fs : FS) (root : FsPath) (st : State) : Except String FS :=
  if envExists fs root st.projectName st.branch then
    Except.error (conflictMsg st.projectName st.branch)
  else
    match saveState fs root st with
    | some fs2 => Except.ok fs2
    | none => Except.error "failed to save state"

/-!
Theorems for the pure components.
-/

lemma tryOffsets_range' (avail : Int → Bool) (base : Ports) :
    ∀ (n k : Nat),
      (∀ j : Nat, j < k →
        (checkPortsAvailable avail (shiftPorts base ((10 : Int) * j))).1 = false) →
      (∃ i : Nat, k ≤ i ∧ i < k + n
        ∧ tryOffsets avail base (List.range' k n) = shiftPorts base ((10 : Int) * i)
        ∧ (checkPortsAvailable avail (shiftPorts base ((10 : Int) * i))).1 = true
        ∧ ∀ j : Nat, j < i →
            (checkPortsAvailable avail (shiftPorts base ((10 : Int) * j))).1 = false)
      ∨ (tryOffsets avail base (List.range' k n) = base
        ∧ ∀ i : Nat, i < k + n →
            (checkPortsAvailable avail (shiftPorts base ((10 : Int) * i))).1 = false) := by
  intro n
  induction n with
  | zero =>
    intro k hk
    right
    exact ⟨rfl, fun i hi => hk i (by omega)⟩
  | succ m ih =>
    intro k hk
    rw [List.range'_succ]
    by_cases hc : (checkPortsAvailable avail (shiftPorts base ((10 : Int) * k))).1 = true
    · left
      refine ⟨k, le_refl k, by omega, ?_, hc, hk⟩
      simp [tryOffsets, hc]
    · have hcf : (checkPortsAvailable avail (shiftPorts base ((10 : Int) * k))).1 = false := by
        revert hc
        cases (checkPortsAvailable avail (shiftPorts base ((10 : Int) * k))).1 <;> simp
      have hk' : ∀ j : Nat, j < k + 1 →
          (checkPortsAvailable avail (shiftPorts base ((10 : Int) * j))).1 = false := by
        intro j hj
        rcases Nat.lt_succ_iff_lt_or_eq.mp hj with h | h
        · exact hk j h
        · subst h; exact hcf
      rcases ih (k + 1) hk' with ⟨i, h1, h2, h3, h4, h5⟩ | ⟨h1, h2⟩
      · left
        refine ⟨i, by omega, by omega, ?_, h4, h5⟩
        simpa [tryOffsets, hcf] using h3
      · right
        refine ⟨?_, fun i hi => h2 i (by omega)⟩
        simpa [tryOffsets, hcf] using h1

/-- C7: `findAvailable(version)` only returns the base allocation of
`calculate(version)` shifted on all four ports by one common offset
`10*i` with `0 ≤ i ≤ 9`; it returns the first such candidate whose
four ports all probe available, and if no bounded candidate is fully
available it returns the unshifted base allocation. -/
theorem findAvailablePorts_common_shift (avail : Int → Bool) (version : String) :
    (∃ i : Nat, i ≤ 9
      ∧ findAvailablePorts avail version
          = shiftPorts (calculatePorts version) ((10 : Int) * i)
      ∧ (checkPortsAvailable avail (findAvailablePorts avail version)).1 = true
      ∧ ∀ j : Nat, j < i →
          (checkPortsAvailable avail
            (shiftPorts (calculatePorts version) ((10 : Int) * j))).1 = false)
    ∨ (findAvailablePorts avail version = calculatePorts version
      ∧ ∀ i : Nat, i ≤ 9 →
          (checkPortsAvailable avail
            (shiftPorts (calculatePorts version) ((10 : Int) * i))).1 = false) := by
  have h := tryOffsets_range' avail (calculatePorts version) 10 0
    (by intro j hj; omega)
  rcases h with ⟨i, _, h2, h3, h4, h5⟩ | ⟨h1, h2⟩
  · left
    refine ⟨i, by omega, ?_, ?_, h5⟩
    · simpa [findAvailablePorts, List.range_eq_range'] using h3
    · have : findAvailablePorts avail version
          = shiftPorts (calculatePorts version) ((10 : Int) * i) := by
        simpa [findAvailablePorts, List.range_eq_range'] using h3
      rw [this]; exact h4
  · right
    refine ⟨?_, fun i hi => h2 i (by omega)⟩
    simpa [findAvailablePorts, List.range_eq_range'] using h1

/-- C6: CalculatePorts is a pure function of the parsed major version
component, but the values it computes diverge from the claimed ones on
the SMTP and debug ports: "17.0" gives `1000+1700+25 = 2725` (the
code's own inline example says 1725) and `5000+1700+78 = 6778` (the
inline example says 5778); "18.0" gives SMTP 2825 and debug 6878 where
the claim says 1825 and 5878. Primary and auxiliary (9700/9725,
9800/9825) are as claimed. -/
theorem calculatePorts_actual_values :
    calculatePorts "17.0" = { odoo := 9700, mailhog := 9725, smtp := 2725, debug := 6778 }
    ∧ calculatePorts "18.0" = { odoo := 9800, mailhog := 9825, smtp := 2825, debug := 6878 }
    ∧ calculatePorts "18.0" ≠ { odoo := 9800, mailhog := 9825, smtp := 1825, debug := 5878 }
    ∧ ∀ version : String,
        calculatePorts version = portsOfMajor (majorOfVersion version) := by
  refine ⟨by decide, by decide, by decide, fun version => rfl⟩

/-- C8: SanitizeName is idempotent, and its output never contains `/`
or any character outside `[A-Za-z0-9-_.]`, so it is safe as a single
path segment. -/
theorem sanitizeName_idempotent_no_separator (s : String) :
    sanitizeName (sanitizeName s) = sanitizeName s
    ∧ ∀ c ∈ (sanitizeName s).data, isAllowedChar c = true ∧ c ≠ '/' := by
  refine ⟨sanitizeName_fixed _ (mem_sanitizeName_allowed s), fun c hc => ?_⟩
  have h := mem_sanitizeName_allowed s c hc
  exact ⟨h, allowedChar_ne_slash h⟩

/-- C4 counterexample: with the `--name` override inside a git
repository, runCreate persists the flag value verbatim; `--name a/b`
yields the project name `a/b`, which contains the path separator `/`
and so is not sanitized. -/
theorem createNames_override_unsanitized :
    (createNames "base" { isRepo := true, repoName := "repo", branch := "main" } "a/b").1
      = "a/b"
    ∧ ¬ (∀ c ∈ (createNames "base"
          { isRepo := true, repoName := "repo", branch := "main" } "a/b").1.data,
          isAllowedChar c = true) := by
  constructor
  · rfl
  · decide

/-- C4 amended: identity components that come from git/directory
detection are sanitized (only characters of `[A-Za-z0-9-_.]`, with `/`
mapped to `-`); the component set from the `--name` override is
persisted verbatim and may be unsanitized, while the component not
taken from the flag is still sanitized. -/
theorem createNames_sanitized_without_override
    (baseName : String) (g : GitInfo) (flagName : String) :
    (∀ c ∈ (createNames baseName g "").1.data, isAllowedChar c = true)
    ∧ (∀ c ∈ (createNames baseName g "").2.data, isAllowedChar c = true)
    ∧ (g.isRepo = true →
        ∀ c ∈ (createNames baseName g flagName).2.data, isAllowedChar c = true)
    ∧ (g.isRepo = false →
        ∀ c ∈ (createNames baseName g flagName).1.data, isAllowedChar c = true) := by
  refine ⟨?_, ?_, ?_, ?_⟩
  · cases hg : g.isRepo <;>
      simpa [createNames, detectNames, hg] using mem_sanitizeName_allowed _
  · cases hg : g.isRepo <;>
      simpa [createNames, detectNames, hg] using mem_sanitizeName_allowed _
  · intro hg
    simpa [createNames, detectNames, hg] using mem_sanitizeName_allowed _
  · intro hg
    simpa [createNames, detectNames, hg] using mem_sanitizeName_allowed _

/-- C4 amended, witness at a concrete input. -/
theorem createNames_sanitized_without_override_witness :
    (∀ c ∈ (createNames "my dir" { isRepo := true, repoName := "repo", branch := "feature/x" } "").1.data,
        isAllowedChar c = true)
    ∧ (∀ c ∈ (createNames "my dir" { isRepo := true, repoName := "repo", branch := "feature/x" } "").2.data,
        isAllowedChar c = true)
    ∧ (({ isRepo := true, repoName := "repo", branch := "feature/x" } : GitInfo).isRepo = true →
        ∀ c ∈ (createNames "my dir" { isRepo := true, repoName := "repo", branch := "feature/x" } "My Name").2.data,
          isAllowedChar c = true)
    ∧ (({ isRepo := true, repoName := "repo", branch := "feature/x" } : GitInfo).isRepo = false →
        ∀ c ∈ (createNames "my dir" { isRepo := true, repoName := "repo", branch := "feature/x" } "My Name").1.data,
          isAllowedChar c = true) :=
  createNames_sanitized_without_override "my dir"
    { isRepo := true, repoName := "repo", branch := "feature/x" } "My Name"

/-- C10: MaskToken is not total. On the token `github_pat_x` (length
12, longer than the guard's 8, carrying the `github_pat_` marker so
the visible head is 11 characters) the mask length is 12 - 11 - 4 = -3
and Go's strings.Repeat panics on the negative count, so the call
crashes instead of returning a masked string. -/
theorem maskToken_panics_on_short_pat_token :
    maskToken "github_pat_x" = none
    ∧ ("github_pat_x".length ≤ 8) = False := by
  constructor
  · decide
  · decide

/-!
Theorems about the Environment Store.
-/

lemma lookupFile_setFile_self (l : List (FsPath × Blob)) (p : FsPath) (b : Blob) :
    lookupFile (setFile l p b) p = some b := by
  induction l with
  | nil => simp [setFile, lookupFile]
  | cons qc rest ih =>
    rcases qc with ⟨q, c⟩
    by_cases h : q = p <;> simp [setFile, lookupFile, h, ih]

lemma lookupFile_setFile_ne (l : List (FsPath × Blob)) (p q : FsPath) (b : Blob)
    (h : q ≠ p) : lookupFile (setFile l p b) q = lookupFile l q := by
  induction l with
  | nil => simp [setFile, lookupFile, Ne.symm h]
  | cons rc rest ih =>
    rcases rc with ⟨r, c⟩
    by_cases hr : r = p
    · subst hr
      simp [setFile, lookupFile, Ne.symm h]
    · simp [setFile, lookupFile, hr, ih]

lemma markerPath_ne_statePath (root : FsPath) (p b r : String) :
    markerPathOf r ≠ stateFilePath root p b := by
  intro h
  have hlen := congrArg List.length h
  simp [markerPathOf, stateFilePath, envDir] at hlen

/-- Unpacking one successful `saveState`: the write-failure oracle let
both writes through and the final filesystem is explicit. -/
lemma saveState_some (fs fs2 : FS) (root : FsPath) (s : State)
    (h : saveState fs root s = some fs2) :
    fs2.files
      = setFile
          (setFile (fs.files) (stateFilePath root s.projectName s.branch)
            (Blob.json (encodeState s)))
          (markerPathOf s.projectRoot)
          (Blob.path (envDir root s.projectName s.branch))
    ∧ fs2.dirs = pathAncestors (envDir root s.projectName s.branch) ++ fs.dirs
    ∧ fs2.failWrite = fs.failWrite := by
  unfold saveState at h
  simp only [Option.bind_eq_bind, Option.bind_eq_some] at h
  rcases h with ⟨fsa, h1, h2⟩
  unfold FS.writeFile at h1 h2
  by_cases hw1 : (FS.mkdirAll fs (envDir root s.projectName s.branch)).failWrite
      (envDir root s.projectName s.branch ++ [stateFileName]) = true
  · simp [hw1] at h1
  · simp only [Bool.not_eq_true] at hw1
    simp [hw1] at h1
    by_cases hw2 : fsa.failWrite (markerPathOf s.projectRoot) = true
    · simp [hw2] at h2
    · simp only [Bool.not_eq_true] at hw2
      simp [hw2] at h2
      subst h2
      simp [← h1, FS.mkdirAll, stateFilePath]

/-- C3: a record loaded back at the identity it was saved under is
deep-equal to the saved one, for every field including nil/empty
optional fields. -/
theorem save_then_load_returns_same_state (fs fs2 : FS) (root : FsPath) (s : State)
    (hsave : saveState fs root s = some fs2) :
    loadState fs2 root s.projectName s.branch = Except.ok s := by
  rcases saveState_some fs fs2 root s hsave with ⟨hfiles, _, _⟩
  unfold loadState FS.readFile
  rw [hfiles,
      lookupFile_setFile_ne _ _ _ _
        (Ne.symm (markerPath_ne_statePath root s.projectName s.branch s.projectRoot)),
      lookupFile_setFile_self]
  simp [decode_encode_state]

/-- C1: after a successful save, the marker under the project root
exists and holds exactly the environment directory
ROOT/project_name/environment_name, the marker fast path alone yields
the saved state back, and LoadFromDir on the project root returns it
with the filesystem untouched (no directory scan, no rewrite). -/
theorem save_then_loadFromDir_fast_path (fs fs2 : FS) (root : FsPath) (s : State)
    (hsave : saveState fs root s = some fs2) :
    fs2.readFile (markerPathOf s.projectRoot)
      = some (Blob.path (envDir root s.projectName s.branch))
    ∧ loadFromDirFast fs2 s.projectRoot = some s
    ∧ loadFromDir fs2 root s.projectRoot = (some s, fs2) := by
  rcases saveState_some fs fs2 root s hsave with ⟨hfiles, _, _⟩
  have hmarker : fs2.readFile (markerPathOf s.projectRoot)
      = some (Blob.path (envDir root s.projectName s.branch)) := by
    unfold FS.readFile
    rw [hfiles, lookupFile_setFile_self]
  have hstate : fs2.readFile (stateFilePath root s.projectName s.branch)
      = some (Blob.json (encodeState s)) := by
    unfold FS.readFile
    rw [hfiles,
        lookupFile_setFile_ne _ _ _ _
          (Ne.symm (markerPath_ne_statePath root s.projectName s.branch s.projectRoot)),
        lookupFile_setFile_self]
  have hstate2 := hstate
  simp only [stateFilePath] at hstate2
  have hfast : loadFromDirFast fs2 s.projectRoot = some s := by
    unfold loadFromDirFast
    rw [hmarker]
    simp [hstate2, decode_encode_state]
  refine ⟨hmarker, hfast, ?_⟩
  unfold loadFromDir
  rw [hfast]

lemma scanBranches_eq_filter (fs : FS) (root : FsPath) (dir : String) (p : String) :
    ∀ l : List (String × Bool),
      scanBranches fs root dir p l
        = ((recordsOfBranches fs root p l).filter (matchesDir dir)).head?.map
            (fun r => r.2.2) := by
  intro l
  induction l with
  | nil => rfl
  | cons e rest ih =>
    rcases e with ⟨b, isDir⟩
    cases isDir with
    | false => simpa [scanBranches, recordsOfBranches] using ih
    | true =>
      cases hl : loadState fs root p b with
      | error err => simp [scanBranches, recordsOfBranches, hl, ih]
      | ok st =>
        by_cases hm : st.projectRoot = dir
        · simp [scanBranches, recordsOfBranches, hl, hm, matchesDir,
                List.filter_cons]
        · simp [scanBranches, recordsOfBranches, hl, hm, matchesDir,
                List.filter_cons, ih]

lemma scanProjects_eq_filter (fs : FS) (root : FsPath) (dir : String) :
    ∀ l : List (String × Bool),
      scanProjects fs root dir l
        = ((recordsOfProjects fs root l).filter (matchesDir dir)).head?.map
            (fun r => r.2.2) := by
  intro l
  induction l with
  | nil => rfl
  | cons e rest ih =>
    rcases e with ⟨p, isDir⟩
    cases isDir with
    | false => simpa [scanProjects, recordsOfProjects] using ih
    | true =>
      cases hrd : fs.readDir (root ++ [p]) with
      | none => simp [scanProjects, recordsOfProjects, hrd, ih]
      | some bs =>
        simp only [scanProjects, recordsOfProjects, hrd, if_true, ite_true]
        rw [scanBranches_eq_filter, ih, List.filter_append, List.head?_append]
        cases hh : ((recordsOfBranches fs root p bs).filter (matchesDir dir)).head? with
        | none => simp [hh]
        | some r => simp [hh]

/-- C2: when the marker fast path fails for any reason (marker absent,
unreadable, naming a directory without a state file, an unparseable
state file, or a record whose project root differs from the queried
directory) and exactly one persisted record carries project root `dir`,
LoadFromDir still returns that record via the scan fallback; when the
marker write is allowed it rewrites the marker at dir/.odooctl to the
record's environment directory, and when the write fails the lookup
still succeeds with the filesystem untouched. -/
theorem stale_marker_scan_recovery (fs : FS) (root : FsPath) (dir : String)
    (p0 b0 : String) (st0 : State)
    (hfast : loadFromDirFast fs dir = none)
    (huniq : (scanRecords fs root).filter (matchesDir dir) = [(p0, b0, st0)]) :
    (loadFromDir fs root dir).1 = some st0
    ∧ (fs.failWrite (markerPathOf dir) = false →
        (loadFromDir fs root dir).2.readFile (markerPathOf dir)
          = some (Blob.path (envDir root st0.projectName st0.branch)))
    ∧ (fs.failWrite (markerPathOf dir) = true →
        (loadFromDir fs root dir).2 = fs) := by
  cases hrd : fs.readDir root with
  | none => simp [scanRecords, hrd] at huniq
  | some ps =>
    have hrec : (recordsOfProjects fs root ps).filter (matchesDir dir)
        = [(p0, b0, st0)] := by simpa [scanRecords, hrd] using huniq
    have hscan : scanProjects fs root dir ps = some st0 := by
      rw [scanProjects_eq_filter, hrec]; rfl
    have heq : loadFromDir fs root dir
        = match fs.writeFile (markerPathOf dir)
              (Blob.path (envDir root st0.projectName st0.branch)) with
          | some fs2 => (some st0, fs2)
          | none => (some st0, fs) := by
      unfold loadFromDir
      rw [hfast, hrd]
      dsimp only
      rw [hscan]
    cases hw : fs.failWrite (markerPathOf dir) with
    | false =>
      have hw2 : fs.writeFile (markerPathOf dir)
          (Blob.path (envDir root st0.projectName st0.branch))
          = some (FS.mk
              (setFile fs.files (markerPathOf dir)
                (Blob.path (envDir root st0.projectName st0.branch)))
              fs.dirs fs.failWrite) := by
        simp [FS.writeFile, hw]
      rw [heq, hw2]
      refine ⟨rfl, fun _ => ?_, fun hcontra => ?_⟩
      · dsimp only
        unfold FS.readFile
        exact lookupFile_setFile_self _ _ _
      · simp at hcontra
    | true =>
      have hw2 : fs.writeFile (markerPathOf dir)
          (Blob.path (envDir root st0.projectName st0.branch)) = none := by
        simp [FS.writeFile, hw]
      rw [heq, hw2]
      refine ⟨rfl, fun hcontra => ?_, fun _ => rfl⟩
      simp at hcontra

/-- C5: creating at an identity that already has a persisted record
fails with the conflict error naming the colliding identity, and the
flow never returns a modified filesystem, so the existing record is
not overwritten. -/
theorem create_conflict_no_overwrite (fs : FS) (root : FsPath) (st : State)
    (h : envExists fs root st.projectName st.branch = true) :
    runCreateFlow fs root st = Except.error (conflictMsg st.projectName st.branch)
    ∧ ∀ fs2 : FS, runCreateFlow fs root st ≠ Except.ok fs2 := by
  have hflow : runCreateFlow fs root st
      = Except.error (conflictMsg st.projectName st.branch) := by
    simp [runCreateFlow, h]
  exact ⟨hflow, fun fs2 hok => by rw [hflow] at hok; cases hok⟩

lemma filter_idem {α : Type} (l : List α) (f : α → Bool) :
    (l.filter f).filter f = l.filter f := by
  induction l with
  | nil => rfl
  | cons a t ih => cases hf : f a <;> simp [List.filter_cons, hf, ih]

lemma lookupFile_filter_pref (l : List (FsPath × Blob)) (d q : FsPath)
    (hq : d.isPrefixOf q = true) :
    lookupFile (l.filter (fun qb => !(d.isPrefixOf qb.1))) q = none := by
  induction l with
  | nil => rfl
  | cons e rest ih =>
    rcases e with ⟨r, c⟩
    cases hr : d.isPrefixOf r with
    | true => simp [List.filter_cons, hr, ih]
    | false =>
      have hne : r ≠ q := by
        intro hh
        subst hh
        rw [hq] at hr
        cases hr
      simp [List.filter_cons, hr, lookupFile, hne, ih]

/-- C9: removing an environment deletes its whole subtree: afterwards
the environment no longer exists, loading it reports NotFound, and the
removal is idempotent (removing a non-existent environment changes
nothing and is not an error). -/
theorem reset_removes_environment (fs : FS) (root : FsPath) (p b : String) :
    envExists (removeEnv fs root p b) root p b = false
    ∧ loadState (removeEnv fs root p b) root p b = Except.error LoadErr.notFound
    ∧ removeEnv (removeEnv fs root p b) root p b = removeEnv fs root p b := by
  have hpref : (envDir root p b).isPrefixOf (stateFilePath root p b) = true :=
    List.isPrefixOf_iff_prefix.mpr (List.prefix_append _ _)
  have hload : (removeEnv fs root p b).readFile (stateFilePath root p b) = none := by
    unfold removeEnv FS.readFile
    exact lookupFile_filter_pref fs.files (envDir root p b) _ hpref
  refine ⟨?_, ?_, ?_⟩
  · simp [envExists, hload]
  · simp [loadState, hload]
  · simp [removeEnv, filter_idem]

/-!
Concrete instances for the witnesses.
-/

/-- An empty filesystem on which every write succeeds. -/
def fsEmpty : FS := { files := [], dirs := [], failWrite := fun _ => false }

/-- ROOT, the configuration root ~/.odooctl. -/
def rootDemo : FsPath := ["home", ".odooctl"]

/-- A state record as the creation flow builds it for project demo on
version 18.0, environment main, working tree wd. -/
def stDemo : State :=
  { projectName := "demo", odooVersion := "18.0", branch := "main",
    isGitRepo := false, projectRoot := "wd", modules := none,
    enterprise := false, enterpriseGitHubToken := "",
    enterpriseSSHKeyPath := "", withoutDemo := false, pipPackages := none,
    addonsPaths := none,
    ports := { odoo := 9800, mailhog := 9825, smtp := 2825, debug := 6878 },
    createdAt := "2024-01-01T00:00:00Z", initializedAt := none,
    builtAt := none }

/-- The filesystem `saveState fsEmpty rootDemo stDemo` produces. -/
def fsSaved : FS :=
  { files := [(stateFilePath rootDemo "demo" "main", Blob.json (encodeState stDemo)),
              (markerPathOf "wd", Blob.path (envDir rootDemo "demo" "main"))],
    dirs := pathAncestors (envDir rootDemo "demo" "main"),
    failWrite := fun _ => false }

/-- C1 witness: one concrete save, then the marker fast path. -/
theorem save_then_loadFromDir_fast_path_witness :
    saveState fsEmpty rootDemo stDemo = some fsSaved
    ∧ (fsSaved.readFile (markerPathOf stDemo.projectRoot)
        = some (Blob.path (envDir rootDemo stDemo.projectName stDemo.branch))
      ∧ loadFromDirFast fsSaved stDemo.projectRoot = some stDemo
      ∧ loadFromDir fsSaved rootDemo stDemo.projectRoot = (some stDemo, fsSaved)) :=
  ⟨rfl, save_then_loadFromDir_fast_path fsEmpty fsSaved rootDemo stDemo rfl⟩

/-- C3 witness: the concrete save round-trips through load. -/
theorem save_then_load_returns_same_state_witness :
    saveState fsEmpty rootDemo stDemo = some fsSaved
    ∧ loadState fsSaved rootDemo stDemo.projectName stDemo.branch
        = Except.ok stDemo :=
  ⟨rfl, save_then_load_returns_same_state fsEmpty fsSaved rootDemo stDemo rfl⟩

/-- The record of the stale-marker scenario: it lives under
ROOT/demo/main and claims working tree wd2. -/
def stWd2 : State := { stDemo with projectRoot := "wd2" }

/-- A filesystem whose marker under wd2 is unreadable garbage while
exactly one persisted record (ROOT/demo/main) claims wd2. -/
def fsStale : FS :=
  { files := [(markerPathOf "wd2", Blob.raw "stale"),
              (stateFilePath rootDemo "demo" "main", Blob.json (encodeState stWd2))],
    dirs := pathAncestors (envDir rootDemo "demo" "main"),
    failWrite := fun _ => false }

/-- C2 witness: the concrete stale marker, recovered by the scan. -/
theorem stale_marker_scan_recovery_witness :
    loadFromDirFast fsStale "wd2" = none
    ∧ (scanRecords fsStale rootDemo).filter (matchesDir "wd2")
        = [("demo", "main", stWd2)]
    ∧ ((loadFromDir fsStale rootDemo "wd2").1 = some stWd2
      ∧ (fsStale.failWrite (markerPathOf "wd2") = false →
          (loadFromDir fsStale rootDemo "wd2").2.readFile (markerPathOf "wd2")
            = some (Blob.path (envDir rootDemo stWd2.projectName stWd2.branch)))
      ∧ (fsStale.failWrite (markerPathOf "wd2") = true →
          (loadFromDir fsStale rootDemo "wd2").2 = fsStale)) :=
  ⟨rfl, rfl,
    stale_marker_scan_recovery fsStale rootDemo "wd2" "demo" "main" stWd2 rfl rfl⟩

/-- A filesystem that already stores a record at (demo, main). -/
def fsExisting : FS :=
  { files := [(stateFilePath rootDemo "demo" "main", Blob.raw "existing")],
    dirs := [], failWrite := fun _ => false }

/-- C5 witness: the concrete conflict. -/
theorem create_conflict_no_overwrite_witness :
    envExists fsExisting rootDemo stDemo.projectName stDemo.branch = true
    ∧ (runCreateFlow fsExisting rootDemo stDemo
        = Except.error (conflictMsg stDemo.projectName stDemo.branch)
      ∧ ∀ fs2 : FS, runCreateFlow fsExisting rootDemo stDemo ≠ Except.ok fs2) :=
  ⟨rfl, create_conflict_no_overwrite fsExisting rootDemo stDemo rfl⟩
